import Mathlib

set_option maxHeartbeats 1000000

/-!
Verification development for the life-calendar generator
(`generate_life_calendar.py`).  The script is embedded shallowly:

* Python `datetime` values become the `Date` structure, `timedelta` /
  `dateutil.relativedelta` arithmetic becomes `nextDay` / `addMonths` /
  `addYears`, and `date.toordinal` becomes `toDays`;
* `datetime.strptime` with the two accepted formats becomes the
  `parseDay` / `parseMonth` / `parseYear` / `tryFormat` functions, which
  mirror CPython's `_strptime` regular expressions for `%d`, `%m`, `%Y`
  (day: two digits in 1..31, a single digit 1..9, or a space followed by
  a digit 1..9; month: two digits in 1..12 or a single digit 1..9;
  year: exactly four digits) followed by constructor validation;
* cairo drawing calls become an `Op` trace; text extents
  (`ctx.text_extents`) are an external collaborator and are passed in as
  a function `ts : String → ℚ × ℚ`;
* raised exceptions become `Option`/`Except` failures.
-/

/-- Gregorian leap-year test, as used by Python's `datetime`. -/
abbrev isLeap (y : ℕ) : Prop := (y % 4 = 0 ∧ ¬ y % 100 = 0) ∨ y % 400 = 0

/-- One on leap years, zero otherwise. -/
def leapBit (y : ℕ) : ℕ := if isLeap y then 1 else 0

/-- Number of days of month `m` (1..12) of year `y`. -/
def daysInMonth (y m : ℕ) : ℕ :=
  match m with
  | 1 => 31 | 2 => 28 + leapBit y | 3 => 31 | 4 => 30 | 5 => 31 | 6 => 30
  | 7 => 31 | 8 => 31 | 9 => 30 | 10 => 31 | 11 => 30 | 12 => 31
  | _ => 0

/-- Days of year `y` that lie before the first day of month `m`. -/
def daysBeforeMonth (y m : ℕ) : ℕ :=
  match m with
  | 1 => 0 | 2 => 31 | 3 => 59 + leapBit y | 4 => 90 + leapBit y
  | 5 => 120 + leapBit y | 6 => 151 + leapBit y | 7 => 181 + leapBit y
  | 8 => 212 + leapBit y | 9 => 243 + leapBit y | 10 => 273 + leapBit y
  | 11 => 304 + leapBit y | 12 => 334 + leapBit y
  | _ => 0

/-- A calendar date: the `(year, month, day)` value of a Python
`datetime` (the script only ever works at midnight, so the time
components are irrelevant). -/
structure Date where
  year : ℕ
  month : ℕ
  day : ℕ
deriving DecidableEq, Repr

/-- A well-formed calendar date. -/
abbrev validDate (a : Date) : Prop :=
  1 ≤ a.year ∧ 1 ≤ a.month ∧ a.month ≤ 12 ∧ 1 ≤ a.day ∧
    a.day ≤ daysInMonth a.year a.month

/-- Python `datetime` strict comparison, restricted to dates:
lexicographic on (year, month, day). -/
abbrev dateLt (a b : Date) : Prop :=
  a.year < b.year ∨
    (a.year = b.year ∧
      (a.month < b.month ∨ (a.month = b.month ∧ a.day < b.day)))

/-- Python `datetime` non-strict comparison, restricted to dates. -/
abbrev dateLe (a b : Date) : Prop := dateLt a b ∨ a = b

/-- Validity check of the `datetime.datetime(year, month, day)`
constructor (`MINYEAR = 1`, `MAXYEAR = 9999`, month and day in range). -/
abbrev mkValid (y m d : ℕ) : Prop :=
  1 ≤ y ∧ y ≤ 9999 ∧ 1 ≤ m ∧ m ≤ 12 ∧ 1 ≤ d ∧ d ≤ daysInMonth y m

/-- The `datetime.datetime(year, month, day)` constructor; `none` models
the `ValueError` raised on an out-of-range component. -/
def mkDatetime (y m d : ℕ) : Option Date :=
  if mkValid y m d then some ⟨y, m, d⟩ else none

/-- The day after `a` (addition of `datetime.timedelta(days=1)`). -/
def nextDay (a : Date) : Date :=
  if a.day < daysInMonth a.year a.month then ⟨a.year, a.month, a.day + 1⟩
  else if a.month < 12 then ⟨a.year, a.month + 1, 1⟩
  else ⟨a.year + 1, 1, 1⟩

/-- Addition of `datetime.timedelta(weeks=1)`. -/
def addWeek (a : Date) : Date := nextDay^[7] a

/-- Total number of days of the first `n` years (year lengths follow the
Gregorian leap rule, as in Python's `date.toordinal`). -/
def yearDays : ℕ → ℕ
  | 0 => 0
  | n + 1 => yearDays n + 365 + leapBit (n + 1)

/-- Proleptic Gregorian ordinal of a date, as Python's
`date.toordinal`: day 1 is 01-01-0001. -/
def toDays (a : Date) : ℕ :=
  yearDays (a.year - 1) + daysBeforeMonth a.year a.month + a.day

/-- Addition of `dateutil.relativedelta(months=k)`: month arithmetic
with the day-of-month clamped into the target month. -/
def addMonths (k : ℕ) (a : Date) : Date :=
  ⟨a.year + (a.month - 1 + k) / 12, (a.month - 1 + k) % 12 + 1,
    min a.day
      (daysInMonth (a.year + (a.month - 1 + k) / 12)
        ((a.month - 1 + k) % 12 + 1))⟩

/-- Addition of `dateutil.relativedelta(years=k)`: the day-of-month is
clamped into the target month. -/
def addYears (k : ℕ) (a : Date) : Date :=
  ⟨a.year + k, a.month, min a.day (daysInMonth (a.year + k) a.month)⟩

/-- The function `is_current_week(now, month, day)` from the script: builds
`datetime(now.year, month, day)` and `datetime(now.year + 1, month,
day)` and tests whether either falls in `[now, now + 1 week)`.  `none`
models the `ValueError` escaping when either construction fails. -/
def is_current_week (now : Date) (month day : ℕ) : Option Bool :=
  match mkDatetime now.year month day, mkDatetime (now.year + 1) month day with
  | some date1, some date2 =>
    some (decide ((dateLe now date1 ∧ dateLt date1 (addWeek now)) ∨
      (dateLe now date2 ∧ dateLt date2 (addWeek now))))
  | _, _ => none

/-- Membership of `x` in the half-open window
`[ref, ref + 7 days)`, expressed through day ordinals. -/
abbrev inWindow (ref x : Date) : Prop :=
  toDays ref ≤ toDays x ∧ toDays x < toDays ref + 7

/-- Numeric value of a decimal digit character (code points 48-57),
`none` otherwise. -/
def digit? (c : Char) : Option ℕ :=
  if 48 ≤ c.toNat ∧ c.toNat ≤ 57 then some (c.toNat - 48) else none

/-- The decimal digit character for `n < 10`. -/
def digitChar (n : ℕ) : Char :=
  match n with
  | 0 => '0' | 1 => '1' | 2 => '2' | 3 => '3' | 4 => '4'
  | 5 => '5' | 6 => '6' | 7 => '7' | 8 => '8' | 9 => '9'
  | _ => '0'

/-- Two-digit zero-padded decimal rendering (strftime `%d` / `%m`). -/
def fmt2 (n : ℕ) : List Char := [digitChar (n / 10), digitChar (n % 10)]

/-- Four-digit zero-padded decimal rendering (strftime `%Y`). -/
def fmt4 (n : ℕ) : List Char :=
  [digitChar (n / 1000), digitChar (n / 100 % 10),
   digitChar (n / 10 % 10), digitChar (n % 10)]

/-- CPython `_strptime` field `%d`: two digits valued 1..31, a single
digit 1..9, or a space followed by a digit 1..9.  Returns the value and
the unconsumed input.  (The alternatives are mutually exclusive on any
input followed by a non-digit separator, so no backtracking is needed.) -/
def parseDay (cs : List Char) : Option (ℕ × List Char) :=
  match cs with
  | c1 :: c2 :: rest =>
    match digit? c1, digit? c2 with
    | some a, some b =>
      if 1 ≤ 10 * a + b ∧ 10 * a + b ≤ 31 then some (10 * a + b, rest)
      else none
    | some a, none => if 1 ≤ a then some (a, c2 :: rest) else none
    | none, some b => if c1 = ' ' ∧ 1 ≤ b then some (b, rest) else none
    | none, none => none
  | [c1] =>
    match digit? c1 with
    | some a => if 1 ≤ a then some (a, []) else none
    | none => none
  | [] => none

/-- CPython `_strptime` field `%m`: two digits valued 1..12 or a single
digit 1..9. -/
def parseMonth (cs : List Char) : Option (ℕ × List Char) :=
  match cs with
  | c1 :: c2 :: rest =>
    match digit? c1, digit? c2 with
    | some a, some b =>
      if 1 ≤ 10 * a + b ∧ 10 * a + b ≤ 12 then some (10 * a + b, rest)
      else none
    | some a, none => if 1 ≤ a then some (a, c2 :: rest) else none
    | none, _ => none
  | [c1] =>
    match digit? c1 with
    | some a => if 1 ≤ a then some (a, []) else none
    | none => none
  | [] => none

/-- CPython `_strptime` field `%Y`: exactly four digits. -/
def parseYear (cs : List Char) : Option (ℕ × List Char) :=
  match cs with
  | c1 :: c2 :: c3 :: c4 :: rest =>
    match digit? c1, digit? c2, digit? c3, digit? c4 with
    | some a, some b, some c, some d =>
      some (1000 * a + 100 * b + 10 * c + d, rest)
    | _, _, _, _ => none
  | _ => none

/-- One attempt of `datetime.datetime.strptime(s, f)` for the format
`%d<sep>%m<sep>%Y`: the whole string must be consumed (otherwise
"unconverted data remains"), and the resulting fields must pass the
`datetime` constructor's validation. -/
def tryFormat (sep : Char) (s : String) : Option Date :=
  match parseDay s.data with
  | none => none
  | some (d, r1) =>
    match r1 with
    | [] => none
    | c :: r2 =>
      if c = sep then
        match parseMonth r2 with
        | none => none
        | some (m, r3) =>
          match r3 with
          | [] => none
          | c' :: r4 =>
            if c' = sep then
              match parseYear r4 with
              | some (y, rest) =>
                match rest with
                | [] =>
                  if 1 ≤ y ∧ d ≤ daysInMonth y m then some ⟨y, m, d⟩
                  else none
                | _ :: _ => none
              | none => none
            else none
      else none

/-- The function `parse_date` from the script: try `%d/%m/%Y`, then `%d-%m-%Y`;
`none` models the final `ValueError` (the `InvalidDateFormat` error
kind).  Note that the script computes `date.strip()` into a local
`stripped` variable but never uses it: `strptime` receives the raw
input, which is what is modelled here. -/
def parse_date (s : String) : Option Date :=
  match tryFormat '/' s with
  | some r => some r
  | none => tryFormat '-' s

/-- A string consisting of a zero-padded two-digit day, a separator, a
zero-padded two-digit month, a separator and a four-digit year: the
literal `DD<sep>MM<sep>YYYY` shape. -/
def dateStr (sep : Char) (d m y : ℕ) : String :=
  String.mk (fmt2 d ++ sep :: (fmt2 m ++ sep :: fmt4 y))

/-- The strict claim pattern: the string is exactly `DD/MM/YYYY` or
`DD-MM-YYYY` with in-range fields forming a valid calendar date. -/
def strictMatch (s : String) : Prop :=
  ∃ d m y, 1 ≤ d ∧ 1 ≤ m ∧ m ≤ 12 ∧ d ≤ daysInMonth y m ∧ 1 ≤ y ∧
    y ≤ 9999 ∧ (s = dateStr '/' d m y ∨ s = dateStr '-' d m y)

/-- The strings accepted by the `%d` field together with their value. -/
inductive DayTok : List Char → ℕ → Prop where
  | two (a b : ℕ) (ha : a < 10) (hb : b < 10) (h1 : 1 ≤ 10 * a + b)
      (h2 : 10 * a + b ≤ 31) : DayTok [digitChar a, digitChar b] (10 * a + b)
  | one (a : ℕ) (h1 : 1 ≤ a) (h2 : a ≤ 9) : DayTok [digitChar a] a
  | padded (a : ℕ) (h1 : 1 ≤ a) (h2 : a ≤ 9) : DayTok [' ', digitChar a] a

/-- The strings accepted by the `%m` field together with their value. -/
inductive MonTok : List Char → ℕ → Prop where
  | two (a b : ℕ) (ha : a < 10) (hb : b < 10) (h1 : 1 ≤ 10 * a + b)
      (h2 : 10 * a + b ≤ 12) : MonTok [digitChar a, digitChar b] (10 * a + b)
  | one (a : ℕ) (h1 : 1 ≤ a) (h2 : a ≤ 9) : MonTok [digitChar a] a

/-- The strings accepted by the `%Y` field together with their value. -/
inductive YearTok : List Char → ℕ → Prop where
  | four (a b c d : ℕ) (ha : a < 10) (hb : b < 10) (hc : c < 10) (hd : d < 10) :
      YearTok [digitChar a, digitChar b, digitChar c, digitChar d]
        (1000 * a + 100 * b + 10 * c + d)

/-- The exact success condition of `strptime` with format
`%d<sep>%m<sep>%Y`: a day token, the separator, a month token, the
separator and a year token exhaust the string, and the fields pass the
`datetime` constructor's validation. -/
def matchesFmt (sep : Char) (s : String) : Prop :=
  ∃ dt mt yt d m y, DayTok dt d ∧ MonTok mt m ∧ YearTok yt y ∧
    s.data = dt ++ (sep :: (mt ++ (sep :: yt))) ∧ 1 ≤ y ∧ d ≤ daysInMonth y m

/-- Layout constants of the script, in layout units (Python floats are
modelled as exact rationals; every value involved is exactly
representable). -/
def DOC_WIDTH : ℚ := 1872

def DOC_HEIGHT : ℚ := 2880

def Y_MARGIN : ℚ := 300

def BOX_MARGIN : ℚ := 6

def BOX_LINE_WIDTH : ℚ := 3

def BIGFONT_SIZE : ℚ := 40

def TINYFONT_SIZE : ℚ := 36

def MAX_TITLE_SIZE : ℕ := 30

def DEFAULT_TITLE : String := "LIFE CALENDAR"

def NUM_ROWS : ℕ := 20

def NUM_COLUMNS : ℕ := 12

/-- The constant `BOX_SIZE = ((DOC_HEIGHT - (Y_MARGIN + 36)) / NUM_ROWS) - BOX_MARGIN`. -/
def BOX_SIZE : ℚ := ((DOC_HEIGHT - (Y_MARGIN + 36)) / (NUM_ROWS : ℚ)) - BOX_MARGIN

/-- The grid-centering half margin, i.e. `X_MARGIN` without its fixed
`+ 50` offset. -/
def xMarginBase : ℚ := (DOC_WIDTH - ((BOX_SIZE + BOX_MARGIN) * (NUM_COLUMNS : ℚ))) / 2

/-- The constant `X_MARGIN = (DOC_WIDTH - ((BOX_SIZE + BOX_MARGIN) * NUM_COLUMNS)) / 2 + 50`. -/
def X_MARGIN : ℚ := (DOC_WIDTH - ((BOX_SIZE + BOX_MARGIN) * (NUM_COLUMNS : ℚ))) / 2 + 50

/-- One cairo drawing primitive, as issued by the script.  Font faces
are recorded as (slant, weight) numeric codes. -/
inductive Op where
  | setLineWidth (w : ℚ)
  | setSourceRgb (r g b : ℚ)
  | moveTo (x y : ℚ)
  | rect (x y w h : ℚ)
  | strokePreserve
  | opFill
  | setFontSize (s : ℚ)
  | selectFontFace (slant weight : ℕ)
  | showText (t : String)
  | showPage
deriving DecidableEq

/-- The ops of `draw_square(ctx, pos_x, pos_y, fillcolour)`. -/
def draw_square_ops (x y : ℚ) (fc : ℚ × ℚ × ℚ) : List Op :=
  [Op.setLineWidth BOX_LINE_WIDTH, Op.setSourceRgb 0 0 0, Op.moveTo x y,
   Op.rect x y BOX_SIZE BOX_SIZE, Op.strokePreserve,
   Op.setSourceRgb fc.1 fc.2.1 fc.2.2, Op.opFill]

/-- The loop body of `draw_row`: draws `n` white squares left to right,
advancing `pos_x` by `BOX_SIZE + BOX_MARGIN` and the (otherwise unused)
local date cursor by `relativedelta(months=12)` per column.  Returns the
emitted ops together with the final `pos_x` and date cursor. -/
def draw_row_loop (n : ℕ) (pos_x pos_y : ℚ) (d : Date) : List Op × ℚ × Date :=
  match n with
  | 0 => ([], pos_x, d)
  | k + 1 =>
    let ops := draw_square_ops pos_x pos_y (1, 1, 1)
    let r := draw_row_loop k (pos_x + BOX_SIZE + BOX_MARGIN) pos_y (addMonths 12 d)
    (ops ++ r.1, r.2)

/-- The ops of `draw_row(ctx, pos_y, date)`: `NUM_COLUMNS` white squares starting
at `x = X_MARGIN`. -/
def draw_row (pos_y : ℚ) (d : Date) : List Op :=
  (draw_row_loop NUM_COLUMNS X_MARGIN pos_y d).1

/-- The expected content of a row: `n` white squares whose x positions
advance by `BOX_SIZE + BOX_MARGIN` starting at `x`. -/
def white_squares (x y : ℚ) (n : ℕ) : List Op :=
  match n with
  | 0 => []
  | k + 1 => draw_square_ops x y (1, 1, 1) ++ white_squares (x + BOX_SIZE + BOX_MARGIN) y k

/-- strftime `%b` month abbreviations in the C locale. -/
def monthAbbrev (m : ℕ) : String :=
  match m with
  | 1 => "Jan" | 2 => "Feb" | 3 => "Mar" | 4 => "Apr" | 5 => "May"
  | 6 => "Jun" | 7 => "Jul" | 8 => "Aug" | 9 => "Sep" | 10 => "Oct"
  | 11 => "Nov" | 12 => "Dec"
  | _ => ""

/-- strftime `%Y` year rendering. -/
def yearStr (y : ℕ) : String := toString y

/-- The month-header loop of `draw_grid`: one label per column, with the
date cursor advanced by `relativedelta(months=1)` per column.  Returns
the ops together with the final `pos_x` and date cursor. -/
def month_header_loop (ts : String → ℚ × ℚ) (n : ℕ) (pos_x : ℚ) (d : Date) :
    List Op × ℚ × Date :=
  match n with
  | 0 => ([], pos_x, d)
  | k + 1 =>
    let t := monthAbbrev d.month
    let wh := ts t
    let ops := [Op.moveTo (pos_x + (BOX_SIZE / 2) - (wh.1 / 2)) (Y_MARGIN - BOX_SIZE + 70),
                Op.showText t]
    let r := month_header_loop ts k (pos_x + BOX_SIZE + BOX_MARGIN) (addMonths 1 d)
    (ops ++ r.1, r.2)

/-- The row loop of `draw_grid`: per row, the year label and a call to
`draw_row`, then `pos_y` advances by `BOX_SIZE + BOX_MARGIN` and the row
date cursor by `relativedelta(years=1)`.  Returns the ops together with
the final `pos_y` and date cursor. -/
def rows_loop (ts : String → ℚ × ℚ) (n : ℕ) (pos_y : ℚ) (d : Date) :
    List Op × ℚ × Date :=
  match n with
  | 0 => ([], pos_y, d)
  | k + 1 =>
    let str := yearStr d.year
    let wh := ts str
    let ops := [Op.setSourceRgb 0 0 0,
                Op.moveTo (X_MARGIN - wh.1 - BOX_SIZE + 70) (pos_y + ((BOX_SIZE / 2) + (wh.2 / 2))),
                Op.showText str] ++ draw_row pos_y d
    let r := rows_loop ts k (pos_y + BOX_SIZE + BOX_MARGIN) (addYears 1 d)
    (ops ++ r.1, r.2)

/-- The ops of `draw_grid(ctx, date)`: font setup, the month-header loop starting
at `(X_MARGIN, Y_MARGIN)`, then the `NUM_ROWS` row loop restarting from
the same start date. -/
def draw_grid (ts : String → ℚ × ℚ) (d : Date) : List Op :=
  [Op.setFontSize TINYFONT_SIZE, Op.selectFontFace 0 0,
   Op.setFontSize TINYFONT_SIZE, Op.selectFontFace 0 0] ++
  (month_header_loop ts NUM_COLUMNS X_MARGIN d).1 ++
  [Op.setFontSize TINYFONT_SIZE, Op.selectFontFace 1 0] ++
  (rows_loop ts NUM_ROWS Y_MARGIN d).1

/-- One rendered page: its grid start date and the drawing primitives
issued for it. -/
structure PageRender where
  start : Date
  ops : List Op
deriving DecidableEq

/-- The per-page body of `gen_calendar`'s year loop: white background,
centered title, the grid for the page's start date, and `show_page`. -/
def render_page (ts : String → ℚ × ℚ) (title : String) (start : Date) : PageRender :=
  ⟨start,
   [Op.setSourceRgb 1 1 1, Op.rect 0 0 DOC_WIDTH DOC_HEIGHT, Op.opFill,
    Op.selectFontFace 0 1, Op.setSourceRgb 0 0 0, Op.setFontSize BIGFONT_SIZE,
    Op.moveTo ((DOC_WIDTH / 2) - ((ts title).1 / 2)) ((Y_MARGIN / 2) - ((ts title).2 / 2)),
    Op.showText title] ++
   draw_grid ts start ++ [Op.showPage]⟩

/-- The error raised by `gen_calendar` when the title is too long. -/
inductive PyErr where
  | titleTooLong
deriving DecidableEq

/-- Python `range(start, stop, step)` for a positive step. -/
def rangeStep (start stop step : ℕ) : List ℕ :=
  (List.range ((stop - start + step - 1) / step)).map (fun i => start + step * i)

/-- The function `gen_calendar(birthdate, title, filename)`: validates the title
length, then creates the PDF surface named `filename` and renders one
page per year in `range(birthdate.year, birthdate.year + 90, NUM_ROWS)`,
each page starting at `date(year, 1, 1)`.  The title `ValueError` is
raised before the surface is created. -/
def gen_calendar (ts : String → ℚ × ℚ) (birthdate : Date) (title filename : String) :
    Except PyErr (String × List PageRender) :=
  if MAX_TITLE_SIZE < title.length then Except.error PyErr.titleTooLong
  else
    Except.ok (filename,
      (rangeStep birthdate.year (birthdate.year + 90) NUM_ROWS).map
        (fun y => render_page ts title ⟨y, 1, 1⟩))

/-- Observable side effects of one `gen_calendar` call: the surface
(file) creation followed by all drawing primitives.  A failing call
performs none (the title is validated before the surface is created). -/
inductive Event where
  | createSurface (filename : String)
  | op (o : Op)
deriving DecidableEq

/-- Concatenation of the ops of a list of rendered pages. -/
def opsConcat : List PageRender → List Op
  | [] => []
  | p :: ps => p.ops ++ opsConcat ps

/-- The event trace of one `gen_calendar` call. -/
def genEvents (ts : String → ℚ × ℚ) (birthdate : Date) (title filename : String) :
    List Event :=
  match gen_calendar ts birthdate title filename with
  | Except.error _ => []
  | Except.ok r => Event.createSurface r.1 :: (opsConcat r.2).map Event.op

/-- strftime `%d-%m-%Y` followed by the batch-mode naming scheme:
`life_calendar_<DD-MM-YYYY>.pdf`. -/
def docName (d : Date) : String :=
  "life_calendar_" ++ String.mk (fmt2 d.day) ++ "-" ++ String.mk (fmt2 d.month) ++
    "-" ++ String.mk (fmt4 d.year) ++ ".pdf"

/-- The batch loop of `main` (fuel-indexed unfolding of
`while start <= end`): per day, one `gen_calendar` call with the default
title and the day-derived file name, then the day advances by one.  An
error from `gen_calendar` aborts the batch; running out of the loop
condition ends it silently with no error. -/
def batchGo (ts : String → ℚ × ℚ) (fuel : ℕ) (d e : Date) :
    List String × Option PyErr :=
  match fuel with
  | 0 => ([], none)
  | n + 1 =>
    if dateLe d e then
      match gen_calendar ts d DEFAULT_TITLE (docName d) with
      | Except.error err => ([], some err)
      | Except.ok _ =>
        let r := batchGo ts n (nextDay d) e
        (docName d :: r.1, r.2)
    else ([], none)

/-- Batch/range mode: the names of the generated documents (in
generation order) and the error, if any, that aborted the batch.  The
fuel `toDays e + 1 - toDays s` is exactly the number of loop iterations
for valid dates, as proved below. -/
def batchRun (ts : String → ℚ × ℚ) (s e : Date) : List String × Option PyErr :=
  batchGo ts (toDays e + 1 - toDays s) s e

/-- The days `s, s+1, ..., s+(k-1)`. -/
def dayList (d : Date) (k : ℕ) : List Date :=
  (List.range k).map (fun i => nextDay^[i] d)

/-- A trivial text-extents collaborator, for concrete instantiations. -/
def tsZero : String → ℚ × ℚ := fun _ => (0, 0)

/-! ### Arithmetic facts about the date model -/

theorem yearDays_succ (n : ℕ) :
    yearDays (n + 1) = yearDays n + 365 + leapBit (n + 1) := rfl

theorem yearDays_le (m n : ℕ) (h : m ≤ n) : yearDays m ≤ yearDays n := by
  induction n, h using Nat.le_induction with
  | base => exact le_refl _
  | succ k hk ih =>
    have := yearDays_succ k
    omega

theorem daysInMonth_le (y m : ℕ) : daysInMonth y m ≤ 31 := by
  unfold daysInMonth leapBit
  split <;> (try split) <;> omega

theorem daysInMonth_pos (y m : ℕ) (h1 : 1 ≤ m) (h2 : m ≤ 12) :
    1 ≤ daysInMonth y m := by
  interval_cases m <;> simp [daysInMonth, leapBit] <;> omega

theorem daysBeforeMonth_succ (y m : ℕ) (h1 : 1 ≤ m) (h2 : m ≤ 11) :
    daysBeforeMonth y (m + 1) = daysBeforeMonth y m + daysInMonth y m := by
  interval_cases m <;> simp [daysBeforeMonth, daysInMonth] <;> omega

theorem daysBeforeMonth_le (y m m' : ℕ) (h1 : 1 ≤ m) (h2 : m < m') (h3 : m' ≤ 12) :
    daysBeforeMonth y m + daysInMonth y m ≤ daysBeforeMonth y m' := by
  have h4 : m ≤ 11 := by omega
  interval_cases m <;> interval_cases m' <;>
    simp [daysBeforeMonth, daysInMonth] <;> omega

theorem daysBeforeMonth_add_le (y m : ℕ) (h1 : 1 ≤ m) (h2 : m ≤ 12) :
    daysBeforeMonth y m + daysInMonth y m ≤ 365 + leapBit y := by
  interval_cases m <;> simp [daysBeforeMonth, daysInMonth] <;> omega

theorem toDays_nextDay (a : Date) (h : validDate a) :
    toDays (nextDay a) = toDays a + 1 := by
  obtain ⟨hy, hm1, hm2, hd1, hd2⟩ := h
  unfold nextDay
  split
  · unfold toDays
    dsimp only
    omega
  · split
    · rename_i hlt hmlt
      unfold toDays
      dsimp only
      rw [daysBeforeMonth_succ a.year a.month hm1 (by omega)]
      omega
    · rename_i hlt hmlt
      have hm : a.month = 12 := by omega
      have hdim : daysInMonth a.year a.month = 31 := by
        rw [hm]
        simp [daysInMonth]
      have hd : a.day = 31 := by omega
      unfold toDays
      dsimp only
      rw [hm]
      have hys := yearDays_succ (a.year - 1)
      rw [Nat.sub_add_cancel hy] at hys
      simp only [daysBeforeMonth, Nat.add_sub_cancel]
      omega

theorem validDate_nextDay (a : Date) (h : validDate a) : validDate (nextDay a) := by
  obtain ⟨hy, hm1, hm2, hd1, hd2⟩ := h
  unfold nextDay
  split
  · rename_i hlt
    refine ⟨?_, ?_, ?_, ?_, ?_⟩ <;> dsimp only <;> omega
  · split
    · rename_i hlt hmlt
      refine ⟨?_, ?_, ?_, ?_, ?_⟩ <;> dsimp only
      · exact hy
      · omega
      · omega
      · omega
      · exact daysInMonth_pos _ _ (by omega) (by omega)
    · refine ⟨?_, ?_, ?_, ?_, ?_⟩ <;> dsimp only
      · omega
      · omega
      · omega
      · omega
      · exact daysInMonth_pos _ _ (by omega) (by omega)

theorem nextDay_iter (a : Date) (h : validDate a) (k : ℕ) :
    validDate (nextDay^[k] a) ∧ toDays (nextDay^[k] a) = toDays a + k := by
  induction k with
  | zero => simpa using h
  | succ n ih =>
    rw [Function.iterate_succ_apply']
    refine ⟨validDate_nextDay _ ih.1, ?_⟩
    rw [toDays_nextDay _ ih.1, ih.2]
    omega

theorem toDays_lt_of_dateLt (a b : Date) (ha : validDate a) (hb : validDate b)
    (h : dateLt a b) : toDays a < toDays b := by
  obtain ⟨hay, ham1, ham2, had1, had2⟩ := ha
  obtain ⟨hby, hbm1, hbm2, hbd1, hbd2⟩ := hb
  unfold toDays
  rcases h with hy | ⟨hye, hm | ⟨hme, hd⟩⟩
  · have h1 : daysBeforeMonth a.year a.month + a.day ≤ 365 + leapBit a.year :=
      le_trans (by omega) (daysBeforeMonth_add_le a.year a.month ham1 ham2)
    have h2 : yearDays (a.year - 1) + 365 + leapBit a.year = yearDays a.year := by
      have := yearDays_succ (a.year - 1)
      rw [Nat.sub_add_cancel hay] at this
      omega
    have h3 : yearDays a.year ≤ yearDays (b.year - 1) := yearDays_le _ _ (by omega)
    omega
  · have hle := daysBeforeMonth_le a.year a.month b.month ham1 hm hbm2
    rw [hye] at hle had2 ⊢
    omega
  · rw [hye, hme]
    omega

theorem dateLt_total (a b : Date) : dateLt a b ∨ a = b ∨ dateLt b a := by
  obtain ⟨ay, am, ad⟩ := a
  obtain ⟨by', bm, bd⟩ := b
  simp only [dateLt, Date.mk.injEq]
  omega

theorem toDays_lt_iff (a b : Date) (ha : validDate a) (hb : validDate b) :
    toDays a < toDays b ↔ dateLt a b := by
  constructor
  · intro h
    rcases dateLt_total a b with h' | h' | h'
    · exact h'
    · subst h'
      omega
    · have := toDays_lt_of_dateLt b a hb ha h'
      omega
  · exact toDays_lt_of_dateLt a b ha hb

theorem toDays_le_iff (a b : Date) (ha : validDate a) (hb : validDate b) :
    toDays a ≤ toDays b ↔ dateLe a b := by
  constructor
  · intro h
    rcases dateLt_total a b with h' | h' | h'
    · exact Or.inl h'
    · exact Or.inr h'
    · have := toDays_lt_of_dateLt b a hb ha h'
      omega
  · rintro (h' | rfl)
    · exact le_of_lt (toDays_lt_of_dateLt a b ha hb h')
    · exact le_refl _

theorem addMonths_index (k : ℕ) (a : Date) :
    (addMonths k a).year * 12 + ((addMonths k a).month - 1) =
      a.year * 12 + (a.month - 1) + k ∧
    1 ≤ (addMonths k a).month ∧ (addMonths k a).month ≤ 12 := by
  unfold addMonths
  dsimp only
  refine ⟨?_, by omega, by omega⟩
  omega

theorem addMonths_iter (k n : ℕ) (a : Date) (h1 : 1 ≤ a.month) (h2 : a.month ≤ 12) :
    ((addMonths k)^[n] a).year * 12 + (((addMonths k)^[n] a).month - 1) =
      a.year * 12 + (a.month - 1) + n * k ∧
    1 ≤ ((addMonths k)^[n] a).month ∧ ((addMonths k)^[n] a).month ≤ 12 := by
  induction n with
  | zero => simpa using ⟨h1, h2⟩
  | succ m ih =>
    rw [Function.iterate_succ_apply']
    have hidx := addMonths_index k ((addMonths k)^[m] a)
    have hmul : (m + 1) * k = m * k + k := by ring
    refine ⟨?_, hidx.2⟩
    rw [hidx.1, ih.1, hmul]
    omega

theorem addYears_iter (n : ℕ) (a : Date) :
    ((addYears 1)^[n] a).year = a.year + n ∧ ((addYears 1)^[n] a).month = a.month := by
  induction n with
  | zero => simp
  | succ m ih =>
    obtain ⟨ih1, ih2⟩ := ih
    rw [Function.iterate_succ_apply']
    simp only [addYears]
    omega

/-! ### Loop-state facts for the drawing loops -/

theorem month_header_loop_cursor (ts : String → ℚ × ℚ) (n : ℕ) (x : ℚ) (d : Date) :
    (month_header_loop ts n x d).2.2 = (addMonths 1)^[n] d := by
  induction n generalizing x d with
  | zero => rfl
  | succ k ih =>
    rw [Function.iterate_succ_apply]
    unfold month_header_loop
    exact ih _ _

theorem draw_row_loop_cursor (n : ℕ) (x y : ℚ) (d : Date) :
    (draw_row_loop n x y d).2.2 = (addMonths 12)^[n] d := by
  induction n generalizing x d with
  | zero => rfl
  | succ k ih =>
    rw [Function.iterate_succ_apply]
    unfold draw_row_loop
    exact ih _ _

theorem rows_loop_cursor (ts : String → ℚ × ℚ) (n : ℕ) (y : ℚ) (d : Date) :
    (rows_loop ts n y d).2.2 = (addYears 1)^[n] d := by
  induction n generalizing y d with
  | zero => rfl
  | succ k ih =>
    rw [Function.iterate_succ_apply]
    unfold rows_loop
    exact ih _ _

theorem draw_row_loop_ops (n : ℕ) (x y : ℚ) (d : Date) :
    (draw_row_loop n x y d).1 = white_squares x y n := by
  induction n generalizing x d with
  | zero => rfl
  | succ k ih =>
    show draw_square_ops x y (1, 1, 1) ++
        (draw_row_loop k (x + BOX_SIZE + BOX_MARGIN) y (addMonths 12 d)).1 =
      draw_square_ops x y (1, 1, 1) ++ white_squares (x + BOX_SIZE + BOX_MARGIN) y k
    rw [ih]

/-! ### Facts about `gen_calendar` and the batch loop -/

theorem gen_calendar_ok (ts : String → ℚ × ℚ) (b : Date) (t f : String)
    (h : t.length ≤ MAX_TITLE_SIZE) :
    gen_calendar ts b t f =
      Except.ok (f, (rangeStep b.year (b.year + 90) NUM_ROWS).map
        (fun y => render_page ts t ⟨y, 1, 1⟩)) := by
  unfold gen_calendar
  rw [if_neg (by omega)]

theorem dayList_succ (d : Date) (k : ℕ) :
    dayList d (k + 1) = d :: dayList (nextDay d) k := by
  unfold dayList
  rw [List.range_succ_eq_map, List.map_cons, List.map_map]
  have hfun : ((fun i => nextDay^[i] d) ∘ Nat.succ) =
      fun i => nextDay^[i] (nextDay d) := by
    funext i
    show nextDay^[i + 1] d = nextDay^[i] (nextDay d)
    exact Function.iterate_succ_apply nextDay i d
  rw [hfun]
  rfl

theorem batchGo_eq (ts : String → ℚ × ℚ) (e : Date) (he : validDate e) :
    ∀ (n : ℕ) (d : Date), validDate d → toDays e < toDays d + n →
      batchGo ts n d e = ((dayList d (toDays e + 1 - toDays d)).map docName, none) := by
  intro n
  induction n with
  | zero =>
    intro d hd hlt
    have h0 : toDays e + 1 - toDays d = 0 := by omega
    rw [h0]
    rfl
  | succ k ih =>
    intro d hd hlt
    unfold batchGo
    by_cases hle : dateLe d e
    · rw [if_pos hle]
      have hdle : toDays d ≤ toDays e := (toDays_le_iff d e hd he).mpr hle
      rw [gen_calendar_ok ts d DEFAULT_TITLE (docName d) (by decide)]
      dsimp only
      rw [ih (nextDay d) (validDate_nextDay d hd)
        (by rw [toDays_nextDay d hd]; omega)]
      rw [toDays_nextDay d hd]
      have hk : toDays e + 1 - toDays d = (toDays e + 1 - (toDays d + 1)) + 1 := by
        omega
      rw [hk, dayList_succ]
      rfl
    · rw [if_neg hle]
      have hgt : toDays e < toDays d := by
        by_contra hcon
        exact hle ((toDays_le_iff d e hd he).mp (by omega))
      have h0 : toDays e + 1 - toDays d = 0 := by omega
      rw [h0]
      rfl

/-! ### Facts about the `strptime` embedding -/

theorem digit?_digitChar (n : ℕ) (h : n < 10) : digit? (digitChar n) = some n := by
  interval_cases n <;> rfl

theorem digit?_eq_some (c : Char) (a : ℕ) (h : digit? c = some a) :
    c = digitChar a ∧ a < 10 := by
  unfold digit? at h
  split_ifs at h with hb
  obtain ⟨h1, h2⟩ := hb
  injection h with h3
  refine ⟨?_, by omega⟩
  subst h3
  rw [← Char.ofNat_toNat c]
  have hc : c.toNat = 48 ∨ c.toNat = 49 ∨ c.toNat = 50 ∨ c.toNat = 51 ∨
      c.toNat = 52 ∨ c.toNat = 53 ∨ c.toNat = 54 ∨ c.toNat = 55 ∨
      c.toNat = 56 ∨ c.toNat = 57 := by omega
  rcases hc with h | h | h | h | h | h | h | h | h | h <;> rw [h] <;> decide

theorem parseDay_fmt2 (d : ℕ) (h1 : 1 ≤ d) (h2 : d ≤ 31) (r : List Char) :
    parseDay (fmt2 d ++ r) = some (d, r) := by
  have e1 := digit?_digitChar (d / 10) (by omega)
  have e2 := digit?_digitChar (d % 10) (by omega)
  have hv : 10 * (d / 10) + d % 10 = d := by omega
  simp only [fmt2, List.cons_append, List.nil_append, parseDay, e1, e2, hv]
  rw [if_pos ⟨h1, h2⟩]

theorem parseMonth_fmt2 (m : ℕ) (h1 : 1 ≤ m) (h2 : m ≤ 12) (r : List Char) :
    parseMonth (fmt2 m ++ r) = some (m, r) := by
  have e1 := digit?_digitChar (m / 10) (by omega)
  have e2 := digit?_digitChar (m % 10) (by omega)
  have hv : 10 * (m / 10) + m % 10 = m := by omega
  simp only [fmt2, List.cons_append, List.nil_append, parseMonth, e1, e2, hv]
  rw [if_pos ⟨h1, h2⟩]

theorem parseYear_fmt4 (y : ℕ) (h : y ≤ 9999) (r : List Char) :
    parseYear (fmt4 y ++ r) = some (y, r) := by
  have e1 := digit?_digitChar (y / 1000) (by omega)
  have e2 := digit?_digitChar (y / 100 % 10) (by omega)
  have e3 := digit?_digitChar (y / 10 % 10) (by omega)
  have e4 := digit?_digitChar (y % 10) (by omega)
  have hv : 1000 * (y / 1000) + 100 * (y / 100 % 10) + 10 * (y / 10 % 10) + y % 10 = y := by
    omega
  simp only [fmt4, List.cons_append, List.nil_append, parseYear, e1, e2, e3, e4, hv]

theorem parseYear_fmt4_nil (y : ℕ) (h : y ≤ 9999) : parseYear (fmt4 y) = some (y, []) := by
  have hy := parseYear_fmt4 y h []
  rwa [List.append_nil] at hy

theorem tryFormat_dateStr (sep : Char) (d m y : ℕ) (h1 : 1 ≤ d)
    (h2 : d ≤ daysInMonth y m) (h3 : 1 ≤ m) (h4 : m ≤ 12) (h5 : 1 ≤ y)
    (h6 : y ≤ 9999) :
    tryFormat sep (dateStr sep d m y) = some ⟨y, m, d⟩ := by
  have hd31 : d ≤ 31 := le_trans h2 (daysInMonth_le y m)
  have hsdata : (dateStr sep d m y).data =
      fmt2 d ++ (sep :: (fmt2 m ++ sep :: fmt4 y)) := rfl
  simp only [tryFormat, hsdata, parseDay_fmt2 d h1 hd31,
    parseMonth_fmt2 m h3 h4, parseYear_fmt4_nil y h6]
  simp [h5, h2]

theorem tryFormat_wrong_sep (sep sep' : Char) (hne : sep' ≠ sep) (d m y : ℕ)
    (h1 : 1 ≤ d) (hd31 : d ≤ 31) :
    tryFormat sep' (dateStr sep d m y) = none := by
  have hsdata : (dateStr sep d m y).data =
      fmt2 d ++ (sep :: (fmt2 m ++ sep :: fmt4 y)) := rfl
  simp only [tryFormat, hsdata, parseDay_fmt2 d h1 hd31]
  rw [if_neg (fun hcon => hne hcon.symm)]

theorem parseDay_sound (cs : List Char) (v : ℕ) (rest : List Char)
    (h : parseDay cs = some (v, rest)) :
    ∃ t, DayTok t v ∧ cs = t ++ rest := by
  rcases cs with _ | ⟨c1, cs1⟩
  · simp [parseDay] at h
  rcases cs1 with _ | ⟨c2, r⟩
  · rcases hd : digit? c1 with _ | a
    · simp [parseDay, hd] at h
    · simp only [parseDay, hd] at h
      split_ifs at h with hr
      obtain ⟨ha, halt⟩ := digit?_eq_some c1 a hd
      simp only [Option.some.injEq, Prod.mk.injEq] at h
      obtain ⟨rfl, rfl⟩ := h
      exact ⟨[digitChar a], DayTok.one a hr (by omega), by rw [ha]; rfl⟩
  · rcases hd1 : digit? c1 with _ | a <;> rcases hd2 : digit? c2 with _ | b
    · simp [parseDay, hd1, hd2] at h
    · simp only [parseDay, hd1, hd2] at h
      split_ifs at h with hr
      obtain ⟨hsp, hb1⟩ := hr
      obtain ⟨hb, hblt⟩ := digit?_eq_some c2 b hd2
      simp only [Option.some.injEq, Prod.mk.injEq] at h
      obtain ⟨rfl, rfl⟩ := h
      exact ⟨[' ', digitChar b], DayTok.padded b hb1 (by omega), by rw [hsp, hb]; rfl⟩
    · simp only [parseDay, hd1, hd2] at h
      split_ifs at h with hr
      obtain ⟨ha, halt⟩ := digit?_eq_some c1 a hd1
      simp only [Option.some.injEq, Prod.mk.injEq] at h
      obtain ⟨rfl, rfl⟩ := h
      exact ⟨[digitChar a], DayTok.one a hr (by omega), by rw [ha]; rfl⟩
    · simp only [parseDay, hd1, hd2] at h
      split_ifs at h with hr
      obtain ⟨ha, halt⟩ := digit?_eq_some c1 a hd1
      obtain ⟨hb, hblt⟩ := digit?_eq_some c2 b hd2
      simp only [Option.some.injEq, Prod.mk.injEq] at h
      obtain ⟨rfl, rfl⟩ := h
      exact ⟨[digitChar a, digitChar b], DayTok.two a b halt hblt hr.1 hr.2,
        by rw [ha, hb]; rfl⟩

theorem parseMonth_sound (cs : List Char) (v : ℕ) (rest : List Char)
    (h : parseMonth cs = some (v, rest)) :
    ∃ t, MonTok t v ∧ cs = t ++ rest := by
  rcases cs with _ | ⟨c1, cs1⟩
  · simp [parseMonth] at h
  rcases cs1 with _ | ⟨c2, r⟩
  · rcases hd : digit? c1 with _ | a
    · simp [parseMonth, hd] at h
    · simp only [parseMonth, hd] at h
      split_ifs at h with hr
      obtain ⟨ha, halt⟩ := digit?_eq_some c1 a hd
      simp only [Option.some.injEq, Prod.mk.injEq] at h
      obtain ⟨rfl, rfl⟩ := h
      exact ⟨[digitChar a], MonTok.one a hr (by omega), by rw [ha]; rfl⟩
  · rcases hd1 : digit? c1 with _ | a
    · simp [parseMonth, hd1] at h
    rcases hd2 : digit? c2 with _ | b
    · simp only [parseMonth, hd1, hd2] at h
      split_ifs at h with hr
      obtain ⟨ha, halt⟩ := digit?_eq_some c1 a hd1
      simp only [Option.some.injEq, Prod.mk.injEq] at h
      obtain ⟨rfl, rfl⟩ := h
      exact ⟨[digitChar a], MonTok.one a hr (by omega), by rw [ha]; rfl⟩
    · simp only [parseMonth, hd1, hd2] at h
      split_ifs at h with hr
      obtain ⟨ha, halt⟩ := digit?_eq_some c1 a hd1
      obtain ⟨hb, hblt⟩ := digit?_eq_some c2 b hd2
      simp only [Option.some.injEq, Prod.mk.injEq] at h
      obtain ⟨rfl, rfl⟩ := h
      exact ⟨[digitChar a, digitChar b], MonTok.two a b halt hblt hr.1 hr.2,
        by rw [ha, hb]; rfl⟩

theorem parseYear_sound (cs : List Char) (v : ℕ) (rest : List Char)
    (h : parseYear cs = some (v, rest)) :
    ∃ t, YearTok t v ∧ cs = t ++ rest := by
  rcases cs with _ | ⟨c1, _ | ⟨c2, _ | ⟨c3, _ | ⟨c4, r⟩⟩⟩⟩
  · simp [parseYear] at h
  · simp [parseYear] at h
  · simp [parseYear] at h
  · simp [parseYear] at h
  rcases hd1 : digit? c1 with _ | a
  · simp [parseYear, hd1] at h
  rcases hd2 : digit? c2 with _ | b
  · simp [parseYear, hd1, hd2] at h
  rcases hd3 : digit? c3 with _ | c
  · simp [parseYear, hd1, hd2, hd3] at h
  rcases hd4 : digit? c4 with _ | d
  · simp [parseYear, hd1, hd2, hd3, hd4] at h
  simp only [parseYear, hd1, hd2, hd3, hd4, Option.some.injEq, Prod.mk.injEq] at h
  obtain ⟨rfl, rfl⟩ := h
  obtain ⟨e1, l1⟩ := digit?_eq_some c1 a hd1
  obtain ⟨e2, l2⟩ := digit?_eq_some c2 b hd2
  obtain ⟨e3, l3⟩ := digit?_eq_some c3 c hd3
  obtain ⟨e4, l4⟩ := digit?_eq_some c4 d hd4
  exact ⟨[digitChar a, digitChar b, digitChar c, digitChar d],
    YearTok.four a b c d l1 l2 l3 l4, by rw [e1, e2, e3, e4]; rfl⟩

theorem tryFormat_sound (sep : Char) (s : String) (r : Date)
    (h : tryFormat sep s = some r) : matchesFmt sep s := by
  unfold tryFormat at h
  split at h
  · exact absurd h (by simp)
  rename_i p d r1 hpd
  split at h
  · exact absurd h (by simp)
  rename_i c r2
  split at h
  case isFalse => exact absurd h (by simp)
  rename_i hc1
  split at h
  · exact absurd h (by simp)
  rename_i q m r3 hpm
  split at h
  · exact absurd h (by simp)
  rename_i c2 r4
  split at h
  case isFalse => exact absurd h (by simp)
  rename_i hc2
  split at h
  case h_2 => exact absurd h (by simp)
  rename_i w y rest hpy
  split at h
  case h_2 => exact absurd h (by simp)
  split at h
  case isFalse => exact absurd h (by simp)
  rename_i hv
  obtain ⟨td, htd, hcs⟩ := parseDay_sound _ _ _ hpd
  obtain ⟨tm, htm, hcs2⟩ := parseMonth_sound _ _ _ hpm
  obtain ⟨ty, hty, hcs3⟩ := parseYear_sound _ _ _ hpy
  refine ⟨td, tm, ty, d, m, y, htd, htm, hty, ?_, hv.1, hv.2⟩
  rw [hcs, hcs2, hcs3, hc1, hc2, List.append_nil]

theorem parse_date_sound (s : String) (r : Date) (h : parse_date s = some r) :
    matchesFmt '/' s ∨ matchesFmt '-' s := by
  unfold parse_date at h
  split at h
  · rename_i r' hps
    exact Or.inl (tryFormat_sound _ _ _ hps)
  · exact Or.inr (tryFormat_sound _ _ _ h)

theorem matchesFmt_length (sep : Char) (s : String) (h : matchesFmt sep s) :
    8 ≤ s.data.length ∧ s.data.length ≤ 10 := by
  obtain ⟨dt, mt, yt, d, m, y, htd, htm, hty, hcs, _, _⟩ := h
  have hd : dt.length = 1 ∨ dt.length = 2 := by cases htd <;> simp
  have hm : mt.length = 1 ∨ mt.length = 2 := by cases htm <;> simp
  have hy : yt.length = 4 := by cases hty <;> simp
  have hlen : s.data.length = dt.length + 1 + mt.length + 1 + yt.length := by
    rw [hcs]
    simp [List.length_append, List.length_cons]
    omega
  rcases hd with hd | hd <;> rcases hm with hm | hm <;> omega

theorem batchGo_gt (ts : String → ℚ × ℚ) (n : ℕ) (d e : Date) (h : ¬ dateLe d e) :
    batchGo ts n d e = ([], none) := by
  cases n with
  | zero => rfl
  | succ k =>
    unfold batchGo
    rw [if_neg h]

/-! ### Claim theorems -/

/-- Claim C7: for the reference constants, `BOX_SIZE` equals
`(doc_height - (y_margin + header_offset)) / num_rows - box_margin`, is
strictly positive (its exact value is `606 / 5 = 121.2`), and the grid
width plus twice the centering margin (`X_MARGIN` without its fixed
`+ 50` offset) is exactly `DOC_WIDTH`. -/
theorem grid_geometry_invariant :
    BOX_SIZE = ((DOC_HEIGHT - (Y_MARGIN + 36)) / (NUM_ROWS : ℚ)) - BOX_MARGIN ∧
    BOX_SIZE = 606 / 5 ∧
    0 < BOX_SIZE ∧
    (BOX_SIZE + BOX_MARGIN) * (NUM_COLUMNS : ℚ) + 2 * xMarginBase = DOC_WIDTH ∧
    X_MARGIN = xMarginBase + 50 := by
  refine ⟨rfl, ?_, ?_, ?_, rfl⟩
  · norm_num [BOX_SIZE, DOC_HEIGHT, Y_MARGIN, BOX_MARGIN, NUM_ROWS]
  · norm_num [BOX_SIZE, DOC_HEIGHT, Y_MARGIN, BOX_MARGIN, NUM_ROWS]
  · unfold xMarginBase
    ring

/-- Claim C9: the drawing output of `draw_row` does not depend on its
date argument: any two dates give the identical op sequence, namely
`NUM_COLUMNS` white-filled squares starting at `X_MARGIN` and advancing
by `BOX_SIZE + BOX_MARGIN`; the internal 12-month cursor advance has no
observable effect on the emitted ops. -/
theorem draw_row_date_independent :
    ∀ (pos_y : ℚ) (d1 d2 : Date),
      draw_row pos_y d1 = draw_row pos_y d2 ∧
      draw_row pos_y d1 = white_squares X_MARGIN pos_y NUM_COLUMNS := by
  intro y d1 d2
  constructor
  · rw [draw_row, draw_row, draw_row_loop_ops, draw_row_loop_ops]
  · rw [draw_row, draw_row_loop_ops]

/-- Claim C5: `gen_calendar` fails with the title-too-long `ValueError`
exactly when the title is longer than `MAX_TITLE_SIZE = 30`, and on that
failure it fails before the surface is created or anything is drawn, so
its event trace is empty (no output file is created). -/
theorem gen_calendar_title_validation :
    ∀ (ts : String → ℚ × ℚ) (b : Date) (t f : String),
      (gen_calendar ts b t f = Except.error PyErr.titleTooLong ↔
        MAX_TITLE_SIZE < t.length) ∧
      (t.length ≤ MAX_TITLE_SIZE → ∃ ps, gen_calendar ts b t f = Except.ok (f, ps)) ∧
      (MAX_TITLE_SIZE < t.length → genEvents ts b t f = []) := by
  intro ts b t f
  by_cases h : MAX_TITLE_SIZE < t.length
  · have he : gen_calendar ts b t f = Except.error PyErr.titleTooLong := by
      unfold gen_calendar
      rw [if_pos h]
    refine ⟨⟨fun _ => h, fun _ => he⟩, fun hle => absurd h (by omega), fun _ => ?_⟩
    unfold genEvents
    rw [he]
  · have he := gen_calendar_ok ts b t f (by omega)
    refine ⟨⟨fun hcon => ?_, fun hcon => absurd hcon h⟩,
      fun _ => ⟨_, he⟩, fun hcon => absurd hcon h⟩
    rw [he] at hcon
    exact absurd hcon (by simp)

/-- Witness for C5: a 31-character title fails with the error and an
empty event trace, and a 30-character title succeeds. -/
theorem gen_calendar_title_validation_witness :
    (MAX_TITLE_SIZE < (String.mk (List.replicate 31 'a')).length ∧
      gen_calendar tsZero ⟨1990, 7, 6⟩ (String.mk (List.replicate 31 'a')) "f.pdf" =
        Except.error PyErr.titleTooLong ∧
      genEvents tsZero ⟨1990, 7, 6⟩ (String.mk (List.replicate 31 'a')) "f.pdf" = []) ∧
    ((String.mk (List.replicate 30 'a')).length ≤ MAX_TITLE_SIZE ∧
      ∃ ps, gen_calendar tsZero ⟨1990, 7, 6⟩ (String.mk (List.replicate 30 'a')) "f.pdf" =
        Except.ok ("f.pdf", ps)) := by
  constructor
  · refine ⟨by decide, ?_, ?_⟩
    · exact ((gen_calendar_title_validation tsZero ⟨1990, 7, 6⟩
        (String.mk (List.replicate 31 'a')) "f.pdf").1).mpr (by decide)
    · exact (gen_calendar_title_validation tsZero ⟨1990, 7, 6⟩
        (String.mk (List.replicate 31 'a')) "f.pdf").2.2 (by decide)
  · exact ⟨by decide, (gen_calendar_title_validation tsZero ⟨1990, 7, 6⟩
      (String.mk (List.replicate 30 'a')) "f.pdf").2.1 (by decide)⟩

/-- Claim C10: `is_current_week` raises (modelled as `none`) whenever
the (month, day) pair is not a valid calendar date in the reference
year or in the following year, instead of returning `false`. -/
theorem is_current_week_invalid_raises :
    ∀ (now : Date) (m d : ℕ),
      ¬ mkValid now.year m d ∨ ¬ mkValid (now.year + 1) m d →
      is_current_week now m d = none := by
  intro now m d h
  unfold is_current_week mkDatetime
  rcases h with h | h
  · rw [if_neg h]
  · by_cases hv1 : mkValid now.year m d
    · rw [if_pos hv1, if_neg h]
    · rw [if_neg hv1]

/-- Witness for C10: February 29 against the non-leap reference year
2019 raises. -/
theorem is_current_week_invalid_raises_witness :
    (¬ mkValid (⟨2019, 6, 1⟩ : Date).year 2 29 ∨
      ¬ mkValid ((⟨2019, 6, 1⟩ : Date).year + 1) 2 29) ∧
    is_current_week ⟨2019, 6, 1⟩ 2 29 = none := by
  refine ⟨Or.inl (by decide), ?_⟩
  exact is_current_week_invalid_raises ⟨2019, 6, 1⟩ 2 29 (Or.inl (by decide))

/-- Claim C4 (code bug): the script computes `date.strip()` into the
local `stripped` but passes the raw `date` to `strptime`, so the
trimmed-valid input of ` 01/01/2000 ` (padded) is rejected though its trimmed
form parses. -/
theorem parse_date_strip_bug :
    parse_date (" 01/01/2000 ") = none ∧
    parse_date ("01/01/2000") = some ⟨2000, 1, 1⟩ := by
  exact ⟨by decide, by decide⟩

/-- Counterexample for C1: for birth date 06-07-1990, the first page's
grid starting date is `(1990, 1, 1)` (the code uses
`datetime.date(year, 1, 1)`), not `(1990, 7, 6)` as the claim's
`(birth_year, birth_month, birth_day)` would require. -/
theorem gen_calendar_jan1_counterexample :
    ((gen_calendar tsZero ⟨1990, 7, 6⟩ DEFAULT_TITLE ("out.pdf")).toOption.map
      (fun r => r.2.map (fun p => p.start))) =
      some [⟨1990, 1, 1⟩, ⟨2010, 1, 1⟩, ⟨2030, 1, 1⟩, ⟨2050, 1, 1⟩, ⟨2070, 1, 1⟩] ∧
    (⟨1990, 1, 1⟩ : Date) ≠ ⟨1990, 7, 6⟩ := by
  exact ⟨by decide, by decide⟩

/-- Claim C1 (amended): in single-document mode `gen_calendar` produces
exactly `ceil(90 / NUM_ROWS) = 5` pages, and page `k` starts at
`(birth_year + k * NUM_ROWS, 1, 1)` — January 1st of that year, not the
birth month and day. -/
theorem gen_calendar_page_structure :
    ∀ (ts : String → ℚ × ℚ) (b : Date) (t f : String), t.length ≤ MAX_TITLE_SIZE →
      ∃ ps, gen_calendar ts b t f = Except.ok (f, ps) ∧
        ps.length = (90 + NUM_ROWS - 1) / NUM_ROWS ∧
        (90 + NUM_ROWS - 1) / NUM_ROWS = 5 ∧
        ps.map (fun p => p.start) =
          (List.range 5).map (fun k => (⟨b.year + k * NUM_ROWS, 1, 1⟩ : Date)) := by
  intro ts b t f h
  have hcnt : (b.year + 90 - b.year + NUM_ROWS - 1) / NUM_ROWS = 5 := by
    simp only [NUM_ROWS]
    omega
  refine ⟨_, gen_calendar_ok ts b t f h, ?_, by norm_num [NUM_ROWS], ?_⟩
  · simp [rangeStep, hcnt]
  · simp only [rangeStep, hcnt, List.map_map]
    congr 1
    funext k
    simp only [Function.comp, render_page, NUM_ROWS, Date.mk.injEq]
    exact ⟨by omega, trivial, trivial⟩

/-- Witness for C1's amended theorem at the default title and a concrete
birth date. -/
theorem gen_calendar_page_structure_witness :
    DEFAULT_TITLE.length ≤ MAX_TITLE_SIZE ∧
    ∃ ps, gen_calendar tsZero ⟨1990, 7, 6⟩ DEFAULT_TITLE ("life_calendar.pdf") =
        Except.ok ("life_calendar.pdf", ps) ∧
      ps.length = (90 + NUM_ROWS - 1) / NUM_ROWS ∧
      (90 + NUM_ROWS - 1) / NUM_ROWS = 5 ∧
      ps.map (fun p => p.start) =
        (List.range 5).map (fun k => (⟨1990 + k * NUM_ROWS, 1, 1⟩ : Date)) := by
  exact ⟨by decide, gen_calendar_page_structure tsZero ⟨1990, 7, 6⟩ DEFAULT_TITLE
    "life_calendar.pdf" (by decide)⟩

/-- Counterexample for C8: in `draw_row` each per-column advance is
`relativedelta(months=12)`, so after the 12 advances of one row the
cursor is at year Y + 12, not at `(Y + 1, M)` as the claim states. -/
theorem draw_row_cursor_counterexample :
    (draw_row_loop 12 X_MARGIN 300 ⟨2000, 1, 1⟩).2.2 = ⟨2012, 1, 1⟩ ∧
    ((draw_row_loop 12 X_MARGIN 300 ⟨2000, 1, 1⟩).2.2).year ≠ 2000 + 1 := by
  exact ⟨by decide, by decide⟩

/-- Claim C8 (amended): the month-header cursor of `draw_grid` advances
one month per column, so after its 12 advances it is at `(Y + 1, M)`;
the per-column cursor inside `draw_row` advances 12 months per column,
so after its 12 advances it is at `(Y + 12, M)`; and the row cursor
advances one year per row, so after `NUM_ROWS` advances it is at
`(Y + NUM_ROWS, M)`. -/
theorem cursor_advancement_amended :
    ∀ (ts : String → ℚ × ℚ) (x y : ℚ) (d : Date), 1 ≤ d.month → d.month ≤ 12 →
      ((month_header_loop ts NUM_COLUMNS x d).2.2.month = d.month ∧
        (month_header_loop ts NUM_COLUMNS x d).2.2.year = d.year + 1) ∧
      ((draw_row_loop NUM_COLUMNS x y d).2.2.month = d.month ∧
        (draw_row_loop NUM_COLUMNS x y d).2.2.year = d.year + 12) ∧
      ((rows_loop ts NUM_ROWS y d).2.2.year = d.year + NUM_ROWS ∧
        (rows_loop ts NUM_ROWS y d).2.2.month = d.month) := by
  intro ts x y d h1 h2
  have ham1 := addMonths_iter 1 NUM_COLUMNS d h1 h2
  have ham12 := addMonths_iter 12 NUM_COLUMNS d h1 h2
  have hay := addYears_iter NUM_ROWS d
  rw [month_header_loop_cursor, draw_row_loop_cursor, rows_loop_cursor]
  simp only [NUM_COLUMNS, NUM_ROWS] at ham1 ham12 hay ⊢
  obtain ⟨i1, i2, i3⟩ := ham1
  obtain ⟨j1, j2, j3⟩ := ham12
  obtain ⟨k1, k2⟩ := hay
  refine ⟨⟨by omega, by omega⟩, ⟨by omega, by omega⟩, by omega, by omega⟩

/-- Witness for C8's amended theorem at a concrete date. -/
theorem cursor_advancement_amended_witness :
    (1 ≤ (⟨2000, 3, 15⟩ : Date).month ∧ (⟨2000, 3, 15⟩ : Date).month ≤ 12) ∧
    (((month_header_loop tsZero NUM_COLUMNS 0 ⟨2000, 3, 15⟩).2.2.month =
        (⟨2000, 3, 15⟩ : Date).month ∧
      (month_header_loop tsZero NUM_COLUMNS 0 ⟨2000, 3, 15⟩).2.2.year =
        (⟨2000, 3, 15⟩ : Date).year + 1) ∧
    ((draw_row_loop NUM_COLUMNS 0 0 ⟨2000, 3, 15⟩).2.2.month =
        (⟨2000, 3, 15⟩ : Date).month ∧
      (draw_row_loop NUM_COLUMNS 0 0 ⟨2000, 3, 15⟩).2.2.year =
        (⟨2000, 3, 15⟩ : Date).year + 12) ∧
    ((rows_loop tsZero NUM_ROWS 0 ⟨2000, 3, 15⟩).2.2.year =
        (⟨2000, 3, 15⟩ : Date).year + NUM_ROWS ∧
      (rows_loop tsZero NUM_ROWS 0 ⟨2000, 3, 15⟩).2.2.month =
        (⟨2000, 3, 15⟩ : Date).month)) := by
  exact ⟨⟨by decide, by decide⟩,
    cursor_advancement_amended tsZero 0 0 ⟨2000, 3, 15⟩ (by decide) (by decide)⟩

/-- Claim C6: for valid inputs, `is_current_week` returns `true` exactly
when the date built from `(now.year, month, day)` or from
`(now.year + 1, month, day)` lies in the half-open week
`[now, now + 7 days)`; in particular reference 28-12-2020 with
month 1, day 2 gives `true` and reference 01-06-2020 with month 12,
day 25 gives `false`. -/
theorem is_current_week_window :
    ∀ (now : Date) (m d : ℕ), validDate now →
      mkValid now.year m d → mkValid (now.year + 1) m d →
      ((is_current_week now m d = some true ↔
        (inWindow now ⟨now.year, m, d⟩ ∨ inWindow now ⟨now.year + 1, m, d⟩)) ∧
       is_current_week ⟨2020, 12, 28⟩ 1 2 = some true ∧
       is_current_week ⟨2020, 6, 1⟩ 12 25 = some false) := by
  intro now m d hnow hv1 hv2
  refine ⟨?_, by decide, by decide⟩
  have hvd1 : validDate (⟨now.year, m, d⟩ : Date) :=
    ⟨hv1.1, hv1.2.2.1, hv1.2.2.2.1, hv1.2.2.2.2.1, hv1.2.2.2.2.2⟩
  have hvd2 : validDate (⟨now.year + 1, m, d⟩ : Date) :=
    ⟨hv2.1, hv2.2.2.1, hv2.2.2.2.1, hv2.2.2.2.2.1, hv2.2.2.2.2.2⟩
  have hw := nextDay_iter now hnow 7
  unfold is_current_week mkDatetime
  rw [if_pos hv1, if_pos hv2]
  simp only [Option.some.injEq, decide_eq_true_eq]
  have hwv : validDate (addWeek now) := hw.1
  have hwt : toDays (addWeek now) = toDays now + 7 := hw.2
  rw [← toDays_le_iff now ⟨now.year, m, d⟩ hnow hvd1,
    ← toDays_le_iff now ⟨now.year + 1, m, d⟩ hnow hvd2,
    ← toDays_lt_iff ⟨now.year, m, d⟩ (addWeek now) hvd1 hwv,
    ← toDays_lt_iff ⟨now.year + 1, m, d⟩ (addWeek now) hvd2 hwv,
    hwt]

/-- Witness for C6 at the wraparound example. -/
theorem is_current_week_window_witness :
    validDate (⟨2020, 12, 28⟩ : Date) ∧ mkValid 2020 1 2 ∧ mkValid 2021 1 2 ∧
    ((is_current_week ⟨2020, 12, 28⟩ 1 2 = some true ↔
      (inWindow ⟨2020, 12, 28⟩ ⟨2020, 1, 2⟩ ∨ inWindow ⟨2020, 12, 28⟩ ⟨2021, 1, 2⟩)) ∧
     is_current_week ⟨2020, 12, 28⟩ 1 2 = some true ∧
     is_current_week ⟨2020, 6, 1⟩ 12 25 = some false) := by
  refine ⟨by decide, by decide, by decide, ?_⟩
  exact is_current_week_window ⟨2020, 12, 28⟩ 1 2 (by decide) (by decide) (by decide)

/-- Counterexample for C3: the single-digit string `1/1/2000` does not
match either strict pattern `DD/MM/YYYY` or `DD-MM-YYYY` (whose matches
all have length 10), yet `parse_date` accepts it, because CPython's
`%d` and `%m` fields also accept single digits. -/
theorem parse_date_lenient_counterexample :
    parse_date ("1/1/2000") = some ⟨2000, 1, 1⟩ ∧ ¬ strictMatch ("1/1/2000") := by
  constructor
  · decide
  · rintro ⟨d, m, y, h1, h2, h3, h4, h5, h6, hcase | hcase⟩
    · have h10 : (dateStr '/' d m y).length = 10 := rfl
      have hlen := congrArg String.length hcase
      rw [h10] at hlen
      exact absurd hlen (by decide)
    · have h10 : (dateStr '-' d m y).length = 10 := rfl
      have hlen := congrArg String.length hcase
      rw [h10] at hlen
      exact absurd hlen (by decide)

/-- Claim C3 (amended): every string of the exact shape `DD/MM/YYYY` or
`DD-MM-YYYY` whose fields form a valid calendar date round-trips through
`parse_date`; every string not matching the lenient `strptime` patterns
(for either separator) fails with the `InvalidDateFormat` error kind; in
particular out-of-range month 13 and an out-of-range day for the month
are rejected.  (The lenient patterns also accept single-digit and
space-padded day fields and single-digit months, which the strict
claim's patterns do not cover.) -/
theorem parse_date_patterns :
    (∀ d m y, 1 ≤ d → d ≤ daysInMonth y m → 1 ≤ m → m ≤ 12 → 1 ≤ y → y ≤ 9999 →
      parse_date (dateStr '/' d m y) = some ⟨y, m, d⟩ ∧
      parse_date (dateStr '-' d m y) = some ⟨y, m, d⟩) ∧
    (∀ s, ¬ matchesFmt '/' s → ¬ matchesFmt '-' s → parse_date s = none) ∧
    parse_date ("01/13/2000") = none ∧ parse_date ("31/04/2000") = none := by
  refine ⟨?_, ?_, by decide, by decide⟩
  · intro d m y h1 h2 h3 h4 h5 h6
    constructor
    · unfold parse_date
      rw [tryFormat_dateStr '/' d m y h1 h2 h3 h4 h5 h6]
    · unfold parse_date
      rw [tryFormat_wrong_sep '-' '/' (by decide) d m y h1
        (le_trans h2 (daysInMonth_le y m))]
      simpa using tryFormat_dateStr '-' d m y h1 h2 h3 h4 h5 h6
  · intro s hn1 hn2
    rcases hps : parse_date s with _ | r
    · rfl
    · rcases parse_date_sound s r hps with hm | hm
      · exact absurd hm hn1
      · exact absurd hm hn2

/-- Witness for C3's amended theorem: 29-02-2000 (a leap day) round
trips in both formats, and the non-matching string `hello` is
rejected. -/
theorem parse_date_patterns_witness :
    (1 ≤ 29 ∧ 29 ≤ daysInMonth 2000 2 ∧ 1 ≤ 2 ∧ 2 ≤ 12 ∧ 1 ≤ 2000 ∧ 2000 ≤ 9999) ∧
    (parse_date (dateStr '/' 29 2 2000) = some ⟨2000, 2, 29⟩ ∧
      parse_date (dateStr '-' 29 2 2000) = some ⟨2000, 2, 29⟩) ∧
    (¬ matchesFmt '/' "hello" ∧ ¬ matchesFmt '-' "hello") ∧
    parse_date ("hello") = none := by
  have hn1 : ¬ matchesFmt '/' "hello" := fun hcon =>
    absurd (matchesFmt_length '/' "hello" hcon) (by decide)
  have hn2 : ¬ matchesFmt '-' "hello" := fun hcon =>
    absurd (matchesFmt_length '-' "hello" hcon) (by decide)
  refine ⟨by decide, ?_, ⟨hn1, hn2⟩, ?_⟩
  · exact parse_date_patterns.1 29 2 2000 (by decide) (by decide) (by decide)
      (by decide) (by decide) (by decide)
  · exact parse_date_patterns.2.1 ("hello") hn1 hn2

/-- Counterexample for C2: for start 02-01-2000 and end 01-01-2000
(start > end), the batch loop produces zero documents and terminates
without raising any error: there is no `InvalidRangeError` anywhere in
the code, so the claimed failure with `InvalidRangeError` is false. -/
theorem batch_no_range_error_counterexample :
    batchRun tsZero ⟨2000, 1, 2⟩ ⟨2000, 1, 1⟩ = ([], none) := by
  unfold batchRun
  exact batchGo_gt tsZero _ _ _ (by decide)

/-- Claim C2 (amended): in batch mode with valid start `s` and end `e`,
the loop generates exactly one document per day of the inclusive range
`[s, e]` (that is `toDays e + 1 - toDays s` documents), in ascending
date order, named `life_calendar_<DD-MM-YYYY>.pdf` for each day, and
finishes with no error; for start > end the count is zero and the loop
ends silently with no error (no `InvalidRangeError` exists in the
code).  The 3-day example 01-01-2000 .. 03-01-2000 yields exactly the
three expected names in order. -/
theorem batch_mode_docs :
    ∀ (ts : String → ℚ × ℚ) (s e : Date), validDate s → validDate e →
      (batchRun ts s e = ((dayList s (toDays e + 1 - toDays s)).map docName, none) ∧
       (batchRun ts s e).1.length = toDays e + 1 - toDays s ∧
       (∀ i, i < toDays e + 1 - toDays s → toDays (nextDay^[i] s) = toDays s + i) ∧
       (¬ dateLe s e → toDays e + 1 - toDays s = 0 ∧ batchRun ts s e = ([], none))) ∧
      batchRun tsZero ⟨2000, 1, 1⟩ ⟨2000, 1, 3⟩ =
        (["life_calendar_01-01-2000.pdf", "life_calendar_02-01-2000.pdf",
          "life_calendar_03-01-2000.pdf"], none) := by
  intro ts s e hs he
  have hmain : batchRun ts s e =
      ((dayList s (toDays e + 1 - toDays s)).map docName, none) := by
    unfold batchRun
    exact batchGo_eq ts e he _ s hs (by omega)
  have hconc : batchRun tsZero ⟨2000, 1, 1⟩ ⟨2000, 1, 3⟩ =
      (["life_calendar_01-01-2000.pdf", "life_calendar_02-01-2000.pdf",
        "life_calendar_03-01-2000.pdf"], none) := by
    have hn1 : nextDay ⟨2000, 1, 1⟩ = ⟨2000, 1, 2⟩ := by decide
    have hn2 : nextDay ⟨2000, 1, 2⟩ = ⟨2000, 1, 3⟩ := by decide
    have e1 : toDays ⟨2000, 1, 2⟩ = toDays ⟨2000, 1, 1⟩ + 1 := by
      rw [← hn1]
      exact toDays_nextDay _ (by decide)
    have e2 : toDays ⟨2000, 1, 3⟩ = toDays ⟨2000, 1, 2⟩ + 1 := by
      rw [← hn2]
      exact toDays_nextDay _ (by decide)
    have hmain2 : batchRun tsZero ⟨2000, 1, 1⟩ ⟨2000, 1, 3⟩ =
        ((dayList ⟨2000, 1, 1⟩
          (toDays ⟨2000, 1, 3⟩ + 1 - toDays ⟨2000, 1, 1⟩)).map docName, none) := by
      unfold batchRun
      exact batchGo_eq tsZero ⟨2000, 1, 3⟩ (by decide) _ ⟨2000, 1, 1⟩ (by decide)
        (by omega)
    have hfuel : toDays ⟨2000, 1, 3⟩ + 1 - toDays ⟨2000, 1, 1⟩ = 3 := by omega
    rw [hmain2, hfuel, dayList_succ, dayList_succ, dayList_succ, hn1, hn2]
    rw [show nextDay (⟨2000, 1, 3⟩ : Date) = ⟨2000, 1, 4⟩ from by decide]
    show ([docName ⟨2000, 1, 1⟩, docName ⟨2000, 1, 2⟩, docName ⟨2000, 1, 3⟩], none) = _
    rw [show docName ⟨2000, 1, 1⟩ = "life_calendar_01-01-2000.pdf" from by decide,
      show docName ⟨2000, 1, 2⟩ = "life_calendar_02-01-2000.pdf" from by decide,
      show docName ⟨2000, 1, 3⟩ = "life_calendar_03-01-2000.pdf" from by decide]
  refine ⟨⟨hmain, ?_, ?_, ?_⟩, hconc⟩
  · rw [hmain]
    simp [dayList]
  · intro i hi
    exact (nextDay_iter s hs i).2
  · intro hgt
    have hlt : toDays e < toDays s := by
      by_contra hcon
      exact hgt ((toDays_le_iff s e hs he).mp (by omega))
    refine ⟨by omega, ?_⟩
    rw [hmain, show toDays e + 1 - toDays s = 0 from by omega]
    rfl

/-- Witness for C2's amended theorem at the 3-day range. -/
theorem batch_mode_docs_witness :
    validDate (⟨2000, 1, 1⟩ : Date) ∧ validDate (⟨2000, 1, 3⟩ : Date) ∧
    batchRun tsZero ⟨2000, 1, 1⟩ ⟨2000, 1, 3⟩ =
      ((dayList ⟨2000, 1, 1⟩
        (toDays ⟨2000, 1, 3⟩ + 1 - toDays ⟨2000, 1, 1⟩)).map docName, none) := by
  refine ⟨by decide, by decide, ?_⟩
  exact (batch_mode_docs tsZero ⟨2000, 1, 1⟩ ⟨2000, 1, 3⟩ (by decide) (by decide)).1.1
